import Mathlib

/-!
Verification development for the sproc service supervisor
(src/src/model.rs and src/src/server.rs), a per-user process supervisor
with a persisted configuration file and an HTTP control plane.

The Rust code is shallowly embedded: `HashMap` becomes an association
list, filesystem reads become an abstract `readFile : String → Option
String`, TOML parsing/serialization become abstract `parse`/`serialize`
functions, the OS process table becomes a list of live pids, and each
`ServicesConfiguration::update_config` call is recorded in an explicit
write trace (the last write is the final content of the config file).
-/

namespace Sproc

/-- Runtime state of a service (`ServiceState` in src/model.rs). -/
inductive ServiceState
  | Running
  | Stopped
deriving DecidableEq

/-- A single executable service (`Service` in src/model.rs): the command
line, its working directory, optional environment-variable overrides and
the auto-restart flag (`#[serde(default)]`, so false by default). -/
structure Service where
  command : String
  working_directory : String
  environment : Option (List (String × String))
  restart : Bool
deriving DecidableEq

/-- The `server` key of the configuration (`ServerConfiguration` in
src/model.rs): HTTP port and shared secret key. -/
structure ServerConfiguration where
  port : Nat
  key : String
deriving DecidableEq

/-- `ServerConfiguration::default()`: port 6374 and an empty key. -/
def ServerConfiguration.defaultConfig : ServerConfiguration :=
  { port := 6374, key := "" }

/-- `ServiceStates = HashMap<String, (ServiceState, u32)>` in
src/model.rs, embedded as an association list from service name to
(state, pid). -/
abbrev ServiceStates := List (String × (ServiceState × Nat))

/-- The whole `services.toml` payload (`ServicesConfiguration` in
src/model.rs): inherited definition files, service definitions, server
settings and the runtime state table. -/
structure ServicesConfiguration where
  inherit : Option (List String)
  services : List (String × Service)
  server : ServerConfiguration
  service_states : ServiceStates
deriving DecidableEq

/-- `ServicesConfiguration::default()`: no inherits, no services, default
server settings, empty state table. -/
def ServicesConfiguration.defaultConfig : ServicesConfiguration :=
  { inherit := none
    services := []
    server := ServerConfiguration.defaultConfig
    service_states := [] }

/-- Association-list lookup, modelling `HashMap::get`. -/
def lookupA {α : Type} : List (String × α) → String → Option α
  | [], _ => none
  | kv :: rest, k => if kv.1 = k then some kv.2 else lookupA rest k

/-- Association-list insert (replace the existing binding in place, else
append), modelling `HashMap::insert`. -/
def insertA {α : Type} : List (String × α) → String → α → List (String × α)
  | [], k, v => [(k, v)]
  | kv :: rest, k, v => if kv.1 = k then (k, v) :: rest else kv :: insertA rest k v

/-- `config.service_states.remove(&name)` on a configuration value. -/
def removeState (c : ServicesConfiguration) (name : String) : ServicesConfiguration :=
  { c with service_states := c.service_states.filter (fun kv => kv.1 ≠ name) }

/-- Setting the `restart` flag of service `name` in place, modelling
`services.get_mut(&name)` followed by `service.restart = b`. -/
def setRestart (c : ServicesConfiguration) (name : String) (b : Bool) : ServicesConfiguration :=
  { c with services :=
      c.services.map (fun kv => if kv.1 = name then (kv.1, { kv.2 with restart := b }) else kv) }

/-- The `io::ErrorKind` values used by src/model.rs. -/
inductive IOErrorKind
  | NotFound
  | AlreadyExists
  | NotConnected
deriving DecidableEq

/-- The five distinct errors constructed by src/model.rs, identified by
their construction site. -/
inductive SprocError
  | serviceNotLoaded
  | serviceNotRunning
  | serviceDoesNotExist
  | processLookupFailed
  | serviceAlreadyRunning
deriving DecidableEq

/-- The `io::ErrorKind` each error is built with in src/model.rs. -/
def SprocError.ioKind : SprocError → IOErrorKind
  | .serviceNotLoaded => .NotFound
  | .serviceNotRunning => .NotConnected
  | .serviceDoesNotExist => .NotFound
  | .processLookupFailed => .NotConnected
  | .serviceAlreadyRunning => .AlreadyExists

/-- The message string each error is built with in src/model.rs. -/
def SprocError.message : SprocError → String
  | .serviceNotLoaded => "Service is not loaded."
  | .serviceNotRunning => "Service is not running."
  | .serviceDoesNotExist => "Service does not exist."
  | .processLookupFailed => "Failed to get process from PID."
  | .serviceAlreadyRunning => "Service is already running."

/-- The error taxonomy of spec.md section 7. -/
inductive SpecError
  | NotFound
  | AlreadyRunning
  | NotRunning
  | ProcessLookupFailed
deriving DecidableEq

/-- Classification of the code's errors into the spec taxonomy.
"Service does not exist." is raised exactly when the name is absent from
the merged service definitions, the spec's NotFound ("unknown service
name"). "Service is not loaded." (no RuntimeRecord at all) and "Service
is not running." (a record exists but is not Running) both report the
absence of a Running record, the spec's NotRunning. "Failed to get
process from PID." is the spec's ProcessLookupFailed. -/
def SprocError.specClass : SprocError → SpecError
  | .serviceNotLoaded => .NotRunning
  | .serviceNotRunning => .NotRunning
  | .serviceDoesNotExist => .NotFound
  | .processLookupFailed => .ProcessLookupFailed
  | .serviceAlreadyRunning => .AlreadyRunning

/-- Rust's `str::split(" ")` on a character list: split at every single
space character, keeping empty segments (so the result is never empty,
and consecutive spaces yield empty segments). -/
def splitSp : List Char → List (List Char)
  | [] => [[]]
  | c :: cs =>
    let rest := splitSp cs
    if c = ' ' then [] :: rest
    else
      match rest with
      | t :: ts => (c :: t) :: ts
      | [] => [[c]]

/-- Splitting at every whitespace character (not just plain spaces),
keeping empty segments.  Used only to state the spec's reading of
"split on whitespace". -/
def splitWs : List Char → List (List Char)
  | [] => [[]]
  | c :: cs =>
    let rest := splitWs cs
    if c.isWhitespace then [] :: rest
    else
      match rest with
      | t :: ts => (c :: t) :: ts
      | [] => [[c]]

/-- Joining segments with single spaces (inverse of `splitSp`). -/
def joinSp : List (List Char) → List Char
  | [] => []
  | [t] => t
  | t :: ts => t ++ ' ' :: joinSp ts

/-- Modelled from the spec: "the first whitespace-separated token is the
program and each remaining token is one argument".  Whitespace-separated
tokens of a string: maximal nonempty runs of non-whitespace characters. -/
def specWords (s : String) : List String :=
  ((splitWs s.data).filter (fun t => !t.isEmpty)).map (fun l => ⟨l⟩)

/-- Does the state table show `name` as Running?  This is the first check
of `Service::run`: `if let Some(s) = cnf.service_states.get(&name)` then
`if s.0 == ServiceState::Running { return Err(AlreadyExists) }`. -/
def runningInStates (states : ServiceStates) (name : String) : Bool :=
  match lookupA states name with
  | some s => s.1 = ServiceState.Running
  | none => false

/-- The OS spawn request `Service::run` builds: program (first segment of
the space-split command), arguments (remaining segments), environment
overrides applied on top of the inherited environment, and the working
directory. The actual OS spawn is outside the model. -/
structure SpawnRequest where
  program : String
  args : List String
  env : List (String × String)
  cwd : String
deriving DecidableEq

/-- `Service::run` (src/model.rs lines 28-63): fail AlreadyExists if the
state table already shows Running; fail NotFound if the name is absent
from the service definitions; otherwise split the command on `" "` and
build the spawn request. -/
def Service.run (name : String) (cnf : ServicesConfiguration) :
    Except SprocError SpawnRequest :=
  if runningInStates cnf.service_states name then
    .error .serviceAlreadyRunning
  else
    match lookupA cnf.services name with
    | none => .error .serviceDoesNotExist
    | some service =>
      let parts := (splitSp service.command.data).map (fun l => (⟨l⟩ : String))
      .ok { program := parts.headD ""
            args := parts.tail
            env := service.environment.getD []
            cwd := service.working_directory }

/-- `Service::kill` (src/model.rs lines 66-117) with the OS process table
as a list of live pids and the `update_config` calls recorded as a write
trace, in order.  Fails NotFound "Service is not loaded." when no state
record exists; NotConnected "Service is not running." when the record is
not Running; NotFound "Service does not exist." when the definition is
missing; NotConnected "Failed to get process from PID." when the recorded
pid is not live.  When the service was supposed to restart it first
persists a copy with restart=false, signals the process, sleeps the 1s
grace interval, and then persists the original configuration back. -/
def Service.kill (name : String) (config : ServicesConfiguration)
    (procs : List Nat) : Except SprocError Unit × List ServicesConfiguration :=
  match lookupA config.service_states name with
  | none => (.error .serviceNotLoaded, [])
  | some s =>
    if s.1 = ServiceState.Running then
      match lookupA config.services name with
      | none => (.error .serviceDoesNotExist, [])
      | some service =>
        if s.2 ∈ procs then
          if service.restart then
            (.ok (), [setRestart config name false, config])
          else
            (.ok (), [])
        else (.error .processLookupFailed, [])
    else (.error .serviceNotRunning, [])

/-- `Service::info` (src/model.rs lines 120-153).  The ProcessSnapshot's
OS-derived fields (memory, cpu, status, uptime) are outside the model;
the returned value keeps the recorded pid the snapshot is taken for. -/
def Service.info (name : String) (service_states : ServiceStates)
    (procs : List Nat) : Except SprocError Nat :=
  match lookupA service_states name with
  | none => .error .serviceNotLoaded
  | some s =>
    if s.1 = ServiceState.Running then
      if s.2 ∈ procs then .ok s.2 else .error .processLookupFailed
    else .error .serviceNotRunning

/-- What the observation task of `Service::spawn` (src/model.rs lines
208-247) does once `Service::wait` returns, i.e. once the process has
exited: re-read the configuration fresh (`fresh` is the value
`ServicesConfiguration::get_config()` returned at exit time); if the
service is no longer defined, `return` from the task (no write, no
respawn); otherwise remove the state record, persist, and loop back into
the spawn step exactly when the freshly read restart flag is true. -/
structure ExitHandling where
  writes : List ServicesConfiguration
  respawn : Bool
deriving DecidableEq

def Service.handleExit (name : String) (fresh : ServicesConfiguration) : ExitHandling :=
  match lookupA fresh.services name with
  | none => { writes := [], respawn := false }
  | some service =>
    { writes := [removeState fresh name], respawn := service.restart }

/-- The immediate result of `Service::spawn` (src/model.rs lines
208-247): it hands the whole start-observe loop to `tokio::task::spawn`
and returns `Ok(())` unconditionally; any failure (such as `Service::run`
failing NotFound inside `Service::wait`) happens inside the detached task
and never reaches `spawn`'s caller. -/
def Service.spawnRet (_name : String) : Except SprocError Unit := .ok ()

/-- Final content of the configuration file after a write trace: the last
write wins; with no writes the file keeps its previous content. -/
def finalDisk (disk : ServicesConfiguration)
    (writes : List ServicesConfiguration) : ServicesConfiguration :=
  writes.getLast?.getD disk

/-- The JSON response payload of the HTTP handlers (`APIReturn` in
src/server.rs). -/
structure APIReturn (α : Type) where
  ok : Bool
  data : α
deriving DecidableEq

/-- Request body of the three service operations (`BasicServiceRequestBody`
in src/server.rs). -/
structure BasicServiceRequestBody where
  service : String
  key : String
deriving DecidableEq

/-- Result of `observe_request` (POST /start, src/server.rs lines 31-56):
the JSON response, plus whether the handler reached the delegation step
(the `Service::spawn` call, which detaches the start-observe task). -/
structure ObserveResponse where
  resp : APIReturn Nat
  spawned : Bool
deriving DecidableEq

/-- `observe_request`: reject with 401 when the request key differs from
the secret captured at server start; otherwise call `Service::spawn`
(which never fails, so the 400 branch is dead) and answer 200. -/
def observeRequest (startCfg : ServicesConfiguration)
    (body : BasicServiceRequestBody) : ObserveResponse :=
  if body.key ≠ startCfg.server.key then
    { resp := { ok := false, data := 401 }, spawned := false }
  else
    match Service.spawnRet body.service with
    | .error _ => { resp := { ok := false, data := 400 }, spawned := true }
    | .ok _ => { resp := { ok := true, data := 200 }, spawned := true }

/-- Result of `kill_request` (POST /kill, src/server.rs lines 59-92): the
JSON response, the write trace of `update_config` calls, and whether the
handler reached the delegation step (the `Service::kill` call). -/
structure KillResponse where
  resp : APIReturn Nat
  writes : List ServicesConfiguration
  delegated : Bool
deriving DecidableEq

/-- `kill_request`: reject with 401 when the request key differs from the
secret captured at server start; otherwise re-read the configuration
fresh (`fresh`), call `Service::kill` on it, answer 400 on error, and on
success remove the state record from the freshly read configuration,
persist it, and answer 200. -/
def killRequest (startCfg : ServicesConfiguration)
    (body : BasicServiceRequestBody) (fresh : ServicesConfiguration)
    (procs : List Nat) : KillResponse :=
  if body.key ≠ startCfg.server.key then
    { resp := { ok := false, data := 401 }, writes := [], delegated := false }
  else
    match Service.kill body.service fresh procs with
    | (.error _, ws) => { resp := { ok := false, data := 400 }, writes := ws, delegated := true }
    | (.ok _, ws) =>
      { resp := { ok := true, data := 200 }
        writes := ws ++ [removeState fresh body.service]
        delegated := true }

/-- Result of `info_request` (POST /info, src/server.rs lines 95-123):
the JSON response (data is the serialized snapshot on success and the
empty string on any failure, including a bad key), and whether the
handler reached the delegation step (the `Service::info` call). -/
structure InfoResponse where
  resp : APIReturn String
  queried : Bool
deriving DecidableEq

/-- `info_request`: reject (ok:false, empty data) when the request key
differs from the secret captured at server start; otherwise re-read the
configuration fresh and delegate to `Service::info`.  The snapshot's TOML
serialization is abstracted as `toString` of the pid the model returns. -/
def infoRequest (startCfg : ServicesConfiguration)
    (body : BasicServiceRequestBody) (fresh : ServicesConfiguration)
    (procs : List Nat) : InfoResponse :=
  if body.key ≠ startCfg.server.key then
    { resp := { ok := false, data := "" }, queried := false }
  else
    match Service.info body.service fresh.service_states procs with
    | .ok i => { resp := { ok := true, data := toString i }, queried := true }
    | .error _ => { resp := { ok := false, data := "" }, queried := true }

/-- Outcome of `ServicesConfiguration::get_config` (src/model.rs lines
318-348): either a configuration value, or a process abort — the
function calls `.unwrap()` on every TOML parse, so malformed content
panics instead of returning an error. -/
inductive LoadOutcome
  | ok (c : ServicesConfiguration)
  | panicked
deriving DecidableEq

/-- The primary configuration file path (`$HOME` resolution abstracted
away; `readFile` is keyed by this constant). -/
def primaryPath : String := ".config/sproc/services.toml"

/-- The comment line `update_config` prepends to the serialized payload. -/
def configFileHeader : String :=
  "# DO **NOT** MANUALLY EDIT THIS FILE! Please edit the source instead and run `sproc pin \x7bpath\x7d`.\n"

/-- Overlay the `services` entries of an inherited file onto the
accumulated set: `for service in parsed.services { res.services.insert }`
— on a name collision the inherited definition replaces the primary. -/
def overlayServices (base : List (String × Service))
    (extra : List (String × Service)) : List (String × Service) :=
  extra.foldl (fun m kv => insertA m kv.1 kv.2) base

/-- The inherit loop of `get_config`: each path that reads successfully
has its content parsed (panicking on a parse failure — `.unwrap()`) and
its services overlaid; an unreadable path is silently skipped. -/
def applyInherit (parse : String → Option ServicesConfiguration)
    (readFile : String → Option String)
    (acc : ServicesConfiguration) : List String → LoadOutcome
  | [] => .ok acc
  | p :: rest =>
    match readFile p with
    | none => applyInherit parse readFile acc rest
    | some c =>
      match parse c with
      | none => .panicked
      | some sub =>
        applyInherit parse readFile
          { acc with services := overlayServices acc.services sub.services } rest

/-- `ServicesConfiguration::get_config`, with filesystem reads abstracted
as `readFile` and TOML deserialization abstracted as `parse`: default
configuration when the primary file is absent; abort when any present
content fails to parse; otherwise the parsed primary with each inherited
file's services overlaid in order. -/
def get_config (parse : String → Option ServicesConfiguration)
    (readFile : String → Option String) : LoadOutcome :=
  match readFile primaryPath with
  | none => .ok ServicesConfiguration.defaultConfig
  | some c =>
    match parse c with
    | none => .panicked
    | some res =>
      match res.inherit with
      | none => .ok res
      | some paths => applyInherit parse readFile res paths

/-- `ServicesConfiguration::update_config`, with TOML serialization
abstracted as `serialize`: overwrite the primary file with the header
comment plus the serialized full aggregate, leaving every other path
unchanged.  Returns the updated filesystem. -/
def update_config (serialize : ServicesConfiguration → String)
    (readFile : String → Option String)
    (c : ServicesConfiguration) : String → Option String :=
  fun p => if p = primaryPath then some (configFileHeader ++ serialize c) else readFile p

/-! ### Helper lemmas -/

/-- Looking up a key in a list filtered to exclude that key yields nothing
(`HashMap::remove` semantics). -/
theorem lookupA_filter_ne {α : Type} (l : List (String × α)) (name : String) :
    lookupA (l.filter (fun kv => kv.1 ≠ name)) name = none := by
  induction l with
  | nil => rfl
  | cons kv rest ih =>
    by_cases h : kv.1 = name
    · simpa [List.filter_cons, h] using ih
    · simpa [List.filter_cons, h, lookupA] using ih

/-- After `removeState` the state table has no record for the name. -/
theorem lookupA_removeState (c : ServicesConfiguration) (name : String) :
    lookupA (removeState c name).service_states name = none :=
  lookupA_filter_ne c.service_states name

/-- `removeState` leaves the service definitions untouched. -/
theorem removeState_services (c : ServicesConfiguration) (name : String) :
    (removeState c name).services = c.services := rfl

/-! ### C1: two-phase kill through the HTTP kill handler -/

/-- Claim C1: for a service defined with restart=true, whose RuntimeRecord
is Running with a live pid, the kill operation succeeds and after it
completes (grace interval included) the final persisted configuration
still carries the original restart flag (the definition is unchanged, so
the flag is `svc.restart = true`) and holds no RuntimeRecord for the
name.  The final persisted content is the last `update_config` write of
the kill handler's trace, independent of the prior file content `d0`. -/
theorem c1_two_phase_kill (cfg : ServicesConfiguration) (name : String)
    (svc : Service) (pid : Nat) (procs : List Nat) (d0 : ServicesConfiguration)
    (hdef : lookupA cfg.services name = some svc)
    (hres : svc.restart = true)
    (hrec : lookupA cfg.service_states name = some (ServiceState.Running, pid))
    (hlive : pid ∈ procs) :
    (Service.kill name cfg procs).1 = .ok () ∧
    (killRequest cfg { service := name, key := cfg.server.key } cfg procs).resp
      = { ok := true, data := 200 } ∧
    lookupA (finalDisk d0
      (killRequest cfg { service := name, key := cfg.server.key } cfg procs).writes).services
      name = some svc ∧
    lookupA (finalDisk d0
      (killRequest cfg { service := name, key := cfg.server.key } cfg procs).writes).service_states
      name = none := by
  have hkill : Service.kill name cfg procs = (.ok (), [setRestart cfg name false, cfg]) := by
    unfold Service.kill
    rw [hrec]
    simp [hdef, hres, hlive]
  have hreq : killRequest cfg { service := name, key := cfg.server.key } cfg procs =
      { resp := { ok := true, data := 200 }
        writes := [setRestart cfg name false, cfg, removeState cfg name]
        delegated := true } := by
    unfold killRequest
    rw [if_neg (by simp)]
    rw [hkill]
    rfl
  refine ⟨by rw [hkill], by rw [hreq], ?_, ?_⟩
  · rw [hreq]
    show lookupA (removeState cfg name).services name = some svc
    rw [removeState_services, hdef]
  · rw [hreq]
    exact lookupA_removeState cfg name

/-- Concrete fixture: a restart=true service. -/
def svcDaemon : Service :=
  { command := "daemon", working_directory := "/", environment := none, restart := true }

/-- Concrete fixture: configuration with `web` defined (restart=true) and
recorded Running at pid 7. -/
def cfgFix : ServicesConfiguration :=
  { inherit := none
    services := [("web", svcDaemon)]
    server := ServerConfiguration.defaultConfig
    service_states := [("web", (ServiceState.Running, 7))] }

theorem c1_two_phase_kill_witness :
    (Service.kill "web" cfgFix [7]).1 = .ok () ∧
    (killRequest cfgFix { service := "web", key := cfgFix.server.key } cfgFix [7]).resp
      = { ok := true, data := 200 } ∧
    lookupA (finalDisk ServicesConfiguration.defaultConfig
      (killRequest cfgFix { service := "web", key := cfgFix.server.key } cfgFix [7]).writes).services
      "web" = some svcDaemon ∧
    lookupA (finalDisk ServicesConfiguration.defaultConfig
      (killRequest cfgFix { service := "web", key := cfgFix.server.key } cfgFix [7]).writes).service_states
      "web" = none :=
  c1_two_phase_kill cfgFix "web" svcDaemon 7 [7] ServicesConfiguration.defaultConfig
    (by decide) (by decide) (by decide) (by decide)

/-! ### C3: never-started services -/

/-- Claim C3: for a defined service with no RuntimeRecord in the state
table (never started), `Service::kill` and `Service::info` both fail with
the "Service is not loaded." error, whose place in the spec's taxonomy is
NotRunning. -/
theorem c3_never_started (cfg : ServicesConfiguration) (name : String)
    (svc : Service) (procs : List Nat)
    (_hdef : lookupA cfg.services name = some svc)
    (hnone : lookupA cfg.service_states name = none) :
    (Service.kill name cfg procs).1 = .error .serviceNotLoaded ∧
    Service.info name cfg.service_states procs = .error .serviceNotLoaded ∧
    SprocError.serviceNotLoaded.specClass = SpecError.NotRunning := by
  refine ⟨?_, ?_, rfl⟩
  · unfold Service.kill
    rw [hnone]
  · unfold Service.info
    rw [hnone]

/-- Concrete fixture: `web` defined but never started. -/
def cfgNeverStarted : ServicesConfiguration :=
  { inherit := none
    services := [("web", svcDaemon)]
    server := ServerConfiguration.defaultConfig
    service_states := [] }

theorem c3_never_started_witness :
    (Service.kill "web" cfgNeverStarted []).1 = .error .serviceNotLoaded ∧
    Service.info "web" cfgNeverStarted.service_states [] = .error .serviceNotLoaded ∧
    SprocError.serviceNotLoaded.specClass = SpecError.NotRunning :=
  c3_never_started cfgNeverStarted "web" svcDaemon [] (by decide) (by decide)

/-! ### C2: exit handling of the observation task -/

/-- Concrete fixture for C2: the service definition for `web` was removed
from the configuration while the instance was running, so the freshly
read configuration defines no services but still records `web` Running. -/
def cfgDefRemoved : ServicesConfiguration :=
  { inherit := none
    services := []
    server := ServerConfiguration.defaultConfig
    service_states := [("web", (ServiceState.Running, 5))] }

/-- Claim C2 counterexample: when the freshly read configuration no
longer defines the service, the observation task performs no
`update_config` write at all — it returns before the removal step — so
the stale Running RuntimeRecord survives in the persisted state table,
contradicting the claim that the record is removed and persisted "
including in the case where the service definition was removed". -/
theorem c2_exit_handling_counterexample :
    (Service.handleExit "web" cfgDefRemoved).writes = [] ∧
    lookupA (finalDisk cfgDefRemoved
        (Service.handleExit "web" cfgDefRemoved).writes).service_states "web"
      = some (ServiceState.Running, 5) ∧
    (Service.handleExit "web" cfgDefRemoved).respawn = false := by
  decide

/-- Claim C2 (amended): on confirmed exit the task re-reads the
configuration fresh; when that fresh configuration still defines the
service it removes the RuntimeRecord and persists (exactly one write),
and loops back into the spawn step precisely when the freshly read
restart flag is true; when the definition was removed while the instance
was running the task returns with no write, leaving the stale record in
the persisted state table, and does not respawn. -/
theorem c2_exit_handling (fresh : ServicesConfiguration) (name : String)
    (d0 : ServicesConfiguration) :
    ((Service.handleExit name fresh).respawn = true ↔
      ∃ svc, lookupA fresh.services name = some svc ∧ svc.restart = true) ∧
    (∀ svc, lookupA fresh.services name = some svc →
      (Service.handleExit name fresh).writes = [removeState fresh name] ∧
      lookupA (finalDisk d0 (Service.handleExit name fresh).writes).service_states
        name = none) ∧
    (lookupA fresh.services name = none →
      (Service.handleExit name fresh).writes = [] ∧
      (Service.handleExit name fresh).respawn = false) := by
  refine ⟨?_, ?_, ?_⟩
  · unfold Service.handleExit
    cases h : lookupA fresh.services name with
    | none => simp
    | some svc => simp
  · intro svc hsvc
    unfold Service.handleExit
    rw [hsvc]
    exact ⟨rfl, lookupA_removeState fresh name⟩
  · intro hnone
    unfold Service.handleExit
    rw [hnone]
    exact ⟨rfl, rfl⟩

theorem c2_exit_handling_witness :
    (Service.handleExit "web" cfgFix).respawn = true ∧
    (Service.handleExit "web" cfgFix).writes = [removeState cfgFix "web"] ∧
    lookupA (finalDisk ServicesConfiguration.defaultConfig
      (Service.handleExit "web" cfgFix).writes).service_states "web" = none :=
  ⟨(c2_exit_handling cfgFix "web" ServicesConfiguration.defaultConfig).1.mpr
      ⟨svcDaemon, by decide, by decide⟩,
    ((c2_exit_handling cfgFix "web" ServicesConfiguration.defaultConfig).2.1
      svcDaemon (by decide)).1,
    ((c2_exit_handling cfgFix "web" ServicesConfiguration.defaultConfig).2.1
      svcDaemon (by decide)).2⟩

/-! ### C4: POST /start on an unknown service name -/

/-- Claim C4 counterexample: with the default configuration (empty key,
no services) and a request whose key matches, POST /start for the
undefined name "ghost" answers `{ok:true, data:200}` — not a failure
payload — even though `Service::run` on that name fails "Service does
not exist.": `Service::spawn` detaches the work and returns `Ok(())`
unconditionally, so the handler's error branch never fires. -/
theorem c4_start_unknown_counterexample :
    ({ service := "ghost", key := "" } : BasicServiceRequestBody).key
      = ServicesConfiguration.defaultConfig.server.key ∧
    lookupA ServicesConfiguration.defaultConfig.services "ghost" = none ∧
    (observeRequest ServicesConfiguration.defaultConfig
        { service := "ghost", key := "" }).resp = { ok := true, data := 200 } ∧
    Service.run "ghost" ServicesConfiguration.defaultConfig
      = .error .serviceDoesNotExist :=
  ⟨rfl, rfl, rfl, rfl⟩

/-- Claim C4 (amended): every POST /start request whose key matches the
server secret is answered `{ok:true, data:200}`, regardless of whether
the service name is defined, because `Service::spawn` returns `Ok`
unconditionally after detaching the observation task; the NotFound
failure of the underlying start (`Service::run`) occurs only inside the
detached task and never reaches the HTTP response. -/
theorem c4_start_response (cfg : ServicesConfiguration)
    (body : BasicServiceRequestBody)
    (hkey : body.key = cfg.server.key) :
    (observeRequest cfg body).resp = { ok := true, data := 200 } ∧
    (observeRequest cfg body).spawned = true ∧
    (lookupA cfg.services body.service = none →
      lookupA cfg.service_states body.service = none →
      Service.run body.service cfg = .error .serviceDoesNotExist) := by
  refine ⟨?_, ?_, ?_⟩
  · unfold observeRequest
    rw [if_neg (by simp [hkey])]
    rfl
  · unfold observeRequest
    rw [if_neg (by simp [hkey])]
    rfl
  · intro hdef hstate
    unfold Service.run
    rw [if_neg (by simp [runningInStates, hstate])]
    rw [hdef]

theorem c4_start_response_witness :
    (observeRequest ServicesConfiguration.defaultConfig
        { service := "ghost", key := "" }).resp = { ok := true, data := 200 } ∧
    (observeRequest ServicesConfiguration.defaultConfig
        { service := "ghost", key := "" }).spawned = true ∧
    (lookupA ServicesConfiguration.defaultConfig.services "ghost" = none →
      lookupA ServicesConfiguration.defaultConfig.service_states "ghost" = none →
      Service.run "ghost" ServicesConfiguration.defaultConfig
        = .error .serviceDoesNotExist) :=
  c4_start_response ServicesConfiguration.defaultConfig
    { service := "ghost", key := "" } (by decide)

/-! ### C5: start on an undefined name with a stale Running record -/

/-- Concrete fixture for C5: `x` is absent from the service definitions
but the state table still holds a stale Running record for it. -/
def cfgStale : ServicesConfiguration :=
  { inherit := none
    services := []
    server := ServerConfiguration.defaultConfig
    service_states := [("x", (ServiceState.Running, 1))] }

/-- Claim C5 counterexample: for a name absent from the service
definitions whose state table still shows a stale Running record,
`Service::run` fails with "Service is already running." — not NotFound
— because the Running check precedes the definition lookup. -/
theorem c5_stale_running_counterexample :
    lookupA cfgStale.services "x" = none ∧
    Service.run "x" cfgStale = .error .serviceAlreadyRunning ∧
    SprocError.serviceAlreadyRunning.specClass ≠ SpecError.NotFound :=
  ⟨rfl, rfl, by decide⟩

/-- Claim C5 (amended): `Service::run` fails AlreadyRunning whenever the
state table shows Running for the name — this check comes first, even
when the name is absent from the definitions — and fails NotFound
exactly when the state table does not show Running and the name is
absent from the merged service definitions. -/
theorem c5_run_precedence (cfg : ServicesConfiguration) (name : String) :
    (runningInStates cfg.service_states name = true →
      Service.run name cfg = .error .serviceAlreadyRunning) ∧
    (runningInStates cfg.service_states name = false →
      lookupA cfg.services name = none →
      Service.run name cfg = .error .serviceDoesNotExist) := by
  constructor
  · intro h
    unfold Service.run
    rw [if_pos h]
  · intro h hdef
    unfold Service.run
    rw [if_neg (by simp [h])]
    rw [hdef]

theorem c5_run_precedence_witness :
    Service.run "x" cfgStale = .error .serviceAlreadyRunning ∧
    Service.run "ghost" ServicesConfiguration.defaultConfig
      = .error .serviceDoesNotExist :=
  ⟨(c5_run_precedence cfgStale "x").1 (by decide),
    (c5_run_precedence ServicesConfiguration.defaultConfig "ghost").2
      (by decide) (by decide)⟩

/-! ### C6: loading the primary configuration file -/

/-- A parse function that rejects every input (the primary file content
is malformed). -/
def parseNone : String → Option ServicesConfiguration := fun _ => none

/-- A filesystem holding malformed content at the primary path. -/
def readFileMalformed : String → Option String :=
  fun p => if p = primaryPath then some "not valid toml" else none

/-- Claim C6 counterexample: when the primary file is present but its
content is malformed, `get_config` does not return a ConfigParse error
to the caller — it panics (`toml::from_str(..).unwrap()`), aborting the
process, modelled by the `panicked` outcome. -/
theorem c6_malformed_counterexample :
    readFileMalformed primaryPath = some "not valid toml" ∧
    parseNone "not valid toml" = none ∧
    get_config parseNone readFileMalformed = .panicked :=
  ⟨by rw [readFileMalformed, if_pos rfl], rfl, by rw [get_config]; rfl⟩

/-- Claim C6 (amended): `get_config` returns the default empty
configuration when the primary file is absent, and aborts the process
(panics) — rather than returning a parse error to the caller — when the
primary file is present but its content is malformed. -/
theorem c6_load_outcomes (parse : String → Option ServicesConfiguration)
    (readFile : String → Option String) :
    (readFile primaryPath = none →
      get_config parse readFile = .ok ServicesConfiguration.defaultConfig) ∧
    (∀ c, readFile primaryPath = some c → parse c = none →
      get_config parse readFile = .panicked) := by
  constructor
  · intro h
    unfold get_config
    rw [h]
  · intro c hc hp
    unfold get_config
    rw [hc]
    show (match parse c with
      | none => LoadOutcome.panicked
      | some res =>
        match res.inherit with
        | none => LoadOutcome.ok res
        | some paths => applyInherit parse readFile res paths) = LoadOutcome.panicked
    rw [hp]

theorem c6_load_outcomes_witness :
    get_config parseNone (fun _ => none) = .ok ServicesConfiguration.defaultConfig ∧
    get_config parseNone readFileMalformed = .panicked :=
  ⟨(c6_load_outcomes parseNone (fun _ => none)).1 rfl,
    (c6_load_outcomes parseNone readFileMalformed).2 "not valid toml"
      (by rw [readFileMalformed, if_pos rfl]) rfl⟩

/-! ### C8: command splitting -/

/-- `splitSp` never returns an empty list (Rust's `split` always yields
at least one segment, so `command_split.get(0).unwrap()` cannot panic). -/
theorem splitSp_ne_nil : ∀ l : List Char, splitSp l ≠ []
  | [] => by simp [splitSp]
  | c :: cs => by
    simp only [splitSp]
    by_cases h : c = ' '
    · simp [h]
    · simp only [h, if_false]
      cases h2 : splitSp cs with
      | nil => simp
      | cons t ts => simp

/-- Rejoining the space-split segments with single spaces reconstructs
the original character list. -/
theorem joinSp_splitSp : ∀ l : List Char, joinSp (splitSp l) = l
  | [] => rfl
  | c :: cs => by
    have ih := joinSp_splitSp cs
    simp only [splitSp]
    by_cases h : c = ' '
    · rw [if_pos h]
      cases h2 : splitSp cs with
      | nil => exact absurd h2 (splitSp_ne_nil cs)
      | cons t ts =>
        rw [h2] at ih
        show [] ++ ' ' :: joinSp (t :: ts) = c :: cs
        rw [List.nil_append, ih, h]
    · rw [if_neg h]
      cases h2 : splitSp cs with
      | nil => exact absurd h2 (splitSp_ne_nil cs)
      | cons t ts =>
        rw [h2] at ih
        cases ts with
        | nil =>
          show c :: t = c :: cs
          rw [show joinSp [t] = t from rfl] at ih
          rw [ih]
        | cons a as =>
          show (c :: t) ++ ' ' :: joinSp (a :: as) = c :: cs
          show c :: (t ++ ' ' :: joinSp (a :: as)) = c :: cs
          rw [show t ++ ' ' :: joinSp (a :: as) = joinSp (t :: a :: as) from rfl, ih]

/-- No segment produced by `splitSp` contains a space. -/
theorem splitSp_no_space : ∀ l : List Char, ∀ t ∈ splitSp l, ' ' ∉ t
  | [] => by simp [splitSp]
  | c :: cs => by
    have ih := splitSp_no_space cs
    simp only [splitSp]
    by_cases h : c = ' '
    · rw [if_pos h]
      intro t ht
      rcases List.mem_cons.mp ht with h1 | h1
      · subst h1; simp
      · exact ih t h1
    · rw [if_neg h]
      cases h2 : splitSp cs with
      | nil => exact absurd h2 (splitSp_ne_nil cs)
      | cons t0 ts =>
        intro t ht
        rcases List.mem_cons.mp ht with h1 | h1
        · subst h1
          intro hmem
          rcases List.mem_cons.mp hmem with h3 | h3
          · exact h h3.symm
          · exact ih t0 (h2 ▸ List.mem_cons_self t0 ts) h3
        · exact ih t (h2 ▸ List.mem_cons_of_mem t0 h1)

/-- `String.data` of the anonymous constructor. -/
theorem stringData_mk (l : List Char) : (⟨l⟩ : String).data = l := rfl

/-- Concrete fixture for C8: a command with two consecutive spaces. -/
def svcDoubleSpace : Service :=
  { command := "a  b", working_directory := "/", environment := none, restart := false }

def cfgDoubleSpace : ServicesConfiguration :=
  { inherit := none
    services := [("w", svcDoubleSpace)]
    server := ServerConfiguration.defaultConfig
    service_states := [] }

/-- Claim C8 counterexample: for the command "a  b" (two consecutive
spaces) the whitespace-separated tokens after the program are `["b"]`,
but `Service::run` splits on every single space character and keeps the
empty segment, passing `["", "b"]` as the argument list. -/
theorem c8_whitespace_counterexample :
    Service.run "w" cfgDoubleSpace
      = .ok { program := "a", args := ["", "b"], env := [], cwd := "/" } ∧
    (specWords svcDoubleSpace.command).tail = ["b"] ∧
    (["", "b"] : List String) ≠ ["b"] :=
  ⟨rfl, rfl, by decide⟩

/-- Claim C8 (amended): `Service::run` builds the child process by
splitting the command string on every single occurrence of the space
character — the first segment is the program, each remaining segment is
one argument, empty segments from consecutive (or leading/trailing)
spaces are kept, and other whitespace is not split on — with no quoting
or escaping support.  Consequently no segment contains a space and
rejoining program and arguments with single spaces reconstructs the
command exactly. -/
theorem c8_command_split (name : String) (cnf : ServicesConfiguration)
    (svc : Service) (req : SpawnRequest)
    (hdef : lookupA cnf.services name = some svc)
    (hrun : Service.run name cnf = .ok req) :
    (req.program :: req.args).map String.data = splitSp svc.command.data ∧
    joinSp ((req.program :: req.args).map String.data) = svc.command.data ∧
    (∀ t ∈ (req.program :: req.args).map String.data, ' ' ∉ t) := by
  have hnr : runningInStates cnf.service_states name = false := by
    by_contra hx
    rw [Bool.not_eq_false] at hx
    unfold Service.run at hrun
    rw [if_pos hx] at hrun
    exact absurd hrun (by simp)
  unfold Service.run at hrun
  rw [if_neg (by simp [hnr]), hdef] at hrun
  injection hrun with h
  have hmain : (req.program :: req.args).map String.data = splitSp svc.command.data := by
    rw [← h]
    cases h2 : splitSp svc.command.data with
    | nil => exact absurd h2 (splitSp_ne_nil svc.command.data)
    | cons t ts =>
      simp only [h2, List.map_cons, List.headD_cons, List.tail_cons, List.map_map]
      rw [show (String.data ∘ fun l => ({ data := l } : String)) = id from rfl, List.map_id]
  refine ⟨hmain, ?_, ?_⟩
  · rw [hmain]
    exact joinSp_splitSp svc.command.data
  · rw [hmain]
    exact splitSp_no_space svc.command.data

theorem c8_command_split_witness :
    (({ program := "a", args := ["", "b"], env := [], cwd := "/" } : SpawnRequest).program ::
        ({ program := "a", args := ["", "b"], env := [], cwd := "/" } : SpawnRequest).args).map
      String.data = splitSp svcDoubleSpace.command.data ∧
    joinSp ((({ program := "a", args := ["", "b"], env := [], cwd := "/" } : SpawnRequest).program ::
        ({ program := "a", args := ["", "b"], env := [], cwd := "/" } : SpawnRequest).args).map
      String.data) = svcDoubleSpace.command.data ∧
    (∀ t ∈ (({ program := "a", args := ["", "b"], env := [], cwd := "/" } : SpawnRequest).program ::
        ({ program := "a", args := ["", "b"], env := [], cwd := "/" } : SpawnRequest).args).map
      String.data, ' ' ∉ t) :=
  c8_command_split "w" cfgDoubleSpace svcDoubleSpace
    { program := "a", args := ["", "b"], env := [], cwd := "/" } (by decide) rfl

/-! ### C9: shared-secret authorization -/

/-- Claim C9: each of the three HTTP handlers reaches its delegation step
exactly when the request key is string-equal to the secret of the
configuration captured at server start; on a mismatch it answers the
fixed unauthorized payload (401, or ok:false with empty data for /info)
and performs no write; and the default server configuration's secret is
the empty string, so an unconfigured server authorizes any request whose
key field is empty. -/
theorem c9_shared_secret (startCfg fresh : ServicesConfiguration)
    (body : BasicServiceRequestBody) (procs : List Nat) :
    ((observeRequest startCfg body).spawned = true ↔ body.key = startCfg.server.key) ∧
    ((killRequest startCfg body fresh procs).delegated = true ↔
      body.key = startCfg.server.key) ∧
    ((infoRequest startCfg body fresh procs).queried = true ↔
      body.key = startCfg.server.key) ∧
    (body.key ≠ startCfg.server.key →
      (observeRequest startCfg body).resp = { ok := false, data := 401 } ∧
      (killRequest startCfg body fresh procs).resp = { ok := false, data := 401 } ∧
      (killRequest startCfg body fresh procs).writes = [] ∧
      (infoRequest startCfg body fresh procs).resp = { ok := false, data := "" }) ∧
    ServerConfiguration.defaultConfig.key = "" := by
  by_cases hk : body.key = startCfg.server.key
  · refine ⟨?_, ?_, ?_, fun hcontra => absurd hk hcontra, rfl⟩
    · unfold observeRequest
      rw [if_neg (by simp [hk])]
      simp [hk, Service.spawnRet]
    · unfold killRequest
      rw [if_neg (by simp [hk])]
      cases hkl : Service.kill body.service fresh procs with
      | mk r ws => cases r <;> simp [hk]
    · unfold infoRequest
      rw [if_neg (by simp [hk])]
      cases hi : Service.info body.service fresh.service_states procs <;> simp [hk]
  · refine ⟨?_, ?_, ?_, ?_, rfl⟩
    · unfold observeRequest
      rw [if_pos hk]
      simp [hk]
    · unfold killRequest
      rw [if_pos hk]
      simp [hk]
    · unfold infoRequest
      rw [if_pos hk]
      simp [hk]
    · intro _
      unfold observeRequest killRequest infoRequest
      rw [if_pos hk, if_pos hk, if_pos hk]
      exact ⟨rfl, rfl, rfl, rfl⟩

theorem c9_shared_secret_witness :
    (observeRequest ServicesConfiguration.defaultConfig
      { service := "s", key := "" }).spawned = true ∧
    (killRequest ServicesConfiguration.defaultConfig
      { service := "s", key := "" } ServicesConfiguration.defaultConfig []).delegated = true ∧
    (infoRequest ServicesConfiguration.defaultConfig
      { service := "s", key := "" } ServicesConfiguration.defaultConfig []).queried = true :=
  ⟨(c9_shared_secret ServicesConfiguration.defaultConfig
      ServicesConfiguration.defaultConfig { service := "s", key := "" } []).1.mpr rfl,
    (c9_shared_secret ServicesConfiguration.defaultConfig
      ServicesConfiguration.defaultConfig { service := "s", key := "" } []).2.1.mpr rfl,
    (c9_shared_secret ServicesConfiguration.defaultConfig
      ServicesConfiguration.defaultConfig { service := "s", key := "" } []).2.2.1.mpr rfl⟩

/-! ### C10: inherited files during load -/

/-- Claim C10: during load, an inherited path that cannot be read is
silently skipped — processing continues exactly as if the path were not
listed, with no error and no services merged from it — whereas an
inherited path that reads successfully but whose content is malformed
aborts the load (the `.unwrap()` panics) rather than being skipped or
returning an error. -/
theorem c10_inherit_loop (parse : String → Option ServicesConfiguration)
    (readFile : String → Option String) (acc : ServicesConfiguration)
    (p : String) (rest : List String) :
    (readFile p = none →
      applyInherit parse readFile acc (p :: rest) = applyInherit parse readFile acc rest) ∧
    (∀ c, readFile p = some c → parse c = none →
      applyInherit parse readFile acc (p :: rest) = .panicked) := by
  constructor
  · intro h
    conv_lhs => rw [applyInherit]
    rw [h]
  · intro c hc hp
    conv_lhs => rw [applyInherit]
    simp only [hc, hp]

/-- A filesystem fixture for C10: path "bad" holds malformed content,
every other path is unreadable. -/
def readFileInherit : String → Option String :=
  fun p => if p = "bad" then some "junk" else none

theorem c10_inherit_loop_witness :
    (applyInherit parseNone readFileInherit ServicesConfiguration.defaultConfig ["missing"]
      = applyInherit parseNone readFileInherit ServicesConfiguration.defaultConfig []) ∧
    applyInherit parseNone readFileInherit ServicesConfiguration.defaultConfig ["bad"]
      = .panicked :=
  ⟨(c10_inherit_loop parseNone readFileInherit ServicesConfiguration.defaultConfig
      "missing" []).1 (by decide),
    (c10_inherit_loop parseNone readFileInherit ServicesConfiguration.defaultConfig
      "bad" []).2 "junk" (by decide) rfl⟩

/-! ### C7: save/load round-trip -/

/-- Lookup after an insert: the inserted key reads back the inserted
value, other keys are unchanged. -/
theorem lookupA_insertA {α : Type} (l : List (String × α)) (k : String) (v : α)
    (q : String) :
    lookupA (insertA l k v) q = if q = k then some v else lookupA l q := by
  induction l with
  | nil =>
    simp only [insertA, lookupA]
    by_cases h : q = k
    · rw [if_pos h, if_pos h.symm]
    · rw [if_neg h, if_neg (fun hh => h hh.symm)]
  | cons kv rest ih =>
    simp only [insertA]
    by_cases h1 : kv.1 = k
    · simp only [if_pos h1, lookupA]
      by_cases h2 : q = k
      · rw [if_pos h2, if_pos h2.symm]
      · rw [if_neg h2, if_neg (fun hh => h2 hh.symm), if_neg (fun hh => h2 (h1 ▸ hh).symm)]
    · simp only [if_neg h1, lookupA, ih]
      by_cases h3 : kv.1 = q
      · rw [if_pos h3, if_neg (fun hh => h1 (h3.trans hh)), if_pos h3]
      · rw [if_neg h3, if_neg h3]

/-- The value of the LAST binding of a key in a list of bindings
(later inserts win). -/
def lookupLast {α : Type} : List (String × α) → String → Option α
  | [], _ => none
  | kv :: rest, k =>
    match lookupLast rest k with
    | some v => some v
    | none => if kv.1 = k then some kv.2 else none

/-- Lookup after overlaying a binding list: the last overlaid binding of
the key wins, otherwise the base map answers. -/
theorem lookupA_overlayServices (extra : List (String × Service))
    (m : List (String × Service)) (q : String) :
    lookupA (overlayServices m extra) q =
      match lookupLast extra q with
      | some v => some v
      | none => lookupA m q := by
  induction extra generalizing m with
  | nil => rfl
  | cons kv rest ih =>
    show lookupA (overlayServices (insertA m kv.1 kv.2) rest) q = _
    rw [ih]
    cases hl : lookupLast rest q with
    | some v =>
      show some v = (match lookupLast (kv :: rest) q with
        | some v => some v | none => lookupA m q)
      simp only [lookupLast, hl]
    | none =>
      rw [lookupA_insertA]
      show (if q = kv.1 then some kv.2 else lookupA m q) =
        (match lookupLast (kv :: rest) q with
          | some v => some v | none => lookupA m q)
      simp only [lookupLast, hl]
      by_cases h : kv.1 = q
      · rw [if_pos h, if_pos h.symm]
      · rw [if_neg h, if_neg (fun hh => h hh.symm)]

/-- Overlaying a concatenation is overlaying in sequence. -/
theorem overlayServices_append (m : List (String × Service))
    (a b : List (String × Service)) :
    overlayServices m (a ++ b) = overlayServices (overlayServices m a) b :=
  List.foldl_append _ _ _ _

/-- The concatenated `services` entries contributed by the inherited
paths, in processing order: unreadable paths and (counterfactually)
unparseable ones contribute nothing. -/
def inheritList (parse : String → Option ServicesConfiguration)
    (readFile : String → Option String) : List String → List (String × Service)
  | [] => []
  | p :: rest =>
    (match readFile p with
     | none => []
     | some c =>
       match parse c with
       | none => []
       | some sub => sub.services) ++ inheritList parse readFile rest

/-- No inherited path panics: every readable path parses. -/
def pathsClean (parse : String → Option ServicesConfiguration)
    (readFile : String → Option String) (paths : List String) : Prop :=
  ∀ p ∈ paths, ∀ c, readFile p = some c → parse c ≠ none

/-- When no path panics, the inherit loop returns the accumulator with
exactly the inherited bindings overlaid onto its services. -/
theorem applyInherit_clean (parse : String → Option ServicesConfiguration)
    (readFile : String → Option String) (paths : List String)
    (acc : ServicesConfiguration) (h : pathsClean parse readFile paths) :
    applyInherit parse readFile acc paths =
      .ok { acc with services :=
        overlayServices acc.services (inheritList parse readFile paths) } := by
  induction paths generalizing acc with
  | nil => rfl
  | cons p rest ih =>
    have hrest : pathsClean parse readFile rest :=
      fun q hq c hc => h q (List.mem_cons_of_mem p hq) c hc
    simp only [applyInherit]
    cases hr : readFile p with
    | none =>
      simp only [hr]
      rw [ih acc hrest]
      have hil : inheritList parse readFile (p :: rest) = inheritList parse readFile rest := by
        simp only [inheritList, hr, List.nil_append]
      rw [hil]
    | some c =>
      cases hp : parse c with
      | none => exact absurd hp (h p (List.mem_cons_self p rest) c hr)
      | some sub =>
        simp only [hr, hp]
        rw [ih _ hrest]
        have hil : inheritList parse readFile (p :: rest)
            = sub.services ++ inheritList parse readFile rest := by
          simp only [inheritList, hr, hp]
        rw [hil, overlayServices_append]

/-- If the inherit loop returned a configuration, no path panicked. -/
theorem applyInherit_ok_clean (parse : String → Option ServicesConfiguration)
    (readFile : String → Option String) (paths : List String)
    (acc out : ServicesConfiguration)
    (h : applyInherit parse readFile acc paths = .ok out) :
    pathsClean parse readFile paths := by
  induction paths generalizing acc with
  | nil => intro p hp; cases hp
  | cons p rest ih =>
    rw [show applyInherit parse readFile acc (p :: rest) =
      (match readFile p with
        | none => applyInherit parse readFile acc rest
        | some c =>
          match parse c with
          | none => LoadOutcome.panicked
          | some sub =>
            applyInherit parse readFile
              { acc with services := overlayServices acc.services sub.services } rest)
      from rfl] at h
    intro q hq c hc hp
    rcases List.mem_cons.mp hq with h1 | h1
    · subst h1
      simp only [hc, hp] at h
      exact LoadOutcome.noConfusion h
    · cases hr : readFile p with
      | none =>
        simp only [hr] at h
        exact ih acc h q h1 c hc hp
      | some c2 =>
        simp only [hr] at h
        cases hp2 : parse c2 with
        | none =>
          simp only [hp2] at h
          exact LoadOutcome.noConfusion h
        | some sub =>
          simp only [hp2] at h
          exact ih _ h q h1 c hc hp

/-- The inherited bindings depend only on the filesystem's answers at the
listed paths. -/
theorem inheritList_congr (parse : String → Option ServicesConfiguration)
    (readFile readFile' : String → Option String) (paths : List String)
    (hag : ∀ p ∈ paths, readFile' p = readFile p) :
    inheritList parse readFile' paths = inheritList parse readFile paths := by
  induction paths with
  | nil => rfl
  | cons p rest ih =>
    simp only [inheritList, hag p (List.mem_cons_self p rest),
      ih (fun q hq => hag q (List.mem_cons_of_mem p hq))]

/-- Claim C7: saving a freshly loaded configuration and loading again
(no intervening mutation) reproduces an equivalent configuration: same
server settings, same state table, same inherit list, and the same
services mapping (extensionally).  `hrt` abstracts the external TOML
library's round-trip at the saved value (serialization details are out of
scope); `hprim` states that the inherited files, if any, are distinct
from the primary file and hence unchanged between the two loads. -/
theorem c7_roundtrip (parse : String → Option ServicesConfiguration)
    (serialize : ServicesConfiguration → String)
    (readFile : String → Option String) (cfg1 : ServicesConfiguration)
    (h1 : get_config parse readFile = .ok cfg1)
    (hrt : parse (configFileHeader ++ serialize cfg1) = some cfg1)
    (hprim : ∀ p ∈ cfg1.inherit.getD [], p ≠ primaryPath) :
    ∃ cfg2, get_config parse (update_config serialize readFile cfg1) = .ok cfg2 ∧
      cfg2.server = cfg1.server ∧
      cfg2.service_states = cfg1.service_states ∧
      cfg2.inherit = cfg1.inherit ∧
      ∀ q, lookupA cfg2.services q = lookupA cfg1.services q := by
  have hrf2 : update_config serialize readFile cfg1 primaryPath
      = some (configFileHeader ++ serialize cfg1) := by
    simp [update_config]
  cases hin : cfg1.inherit with
  | none =>
    refine ⟨cfg1, ?_, rfl, rfl, hin, fun q => rfl⟩
    simp only [get_config, hrf2, hrt, hin]
  | some paths =>
    cases hrf : readFile primaryPath with
    | none =>
      simp only [get_config, hrf] at h1
      injection h1 with h1e
      rw [← h1e] at hin
      exact absurd hin (by simp [ServicesConfiguration.defaultConfig])
    | some c0 =>
      simp only [get_config, hrf] at h1
      cases hp0 : parse c0 with
      | none =>
        rw [hp0] at h1
        exact LoadOutcome.noConfusion h1
      | some res =>
        rw [hp0] at h1
        simp only [] at h1
        cases hres : res.inherit with
        | none =>
          rw [hres] at h1
          simp only [] at h1
          injection h1 with h1e
          rw [h1e] at hres
          rw [hin] at hres
          exact Option.noConfusion hres
        | some paths0 =>
          rw [hres] at h1
          simp only [] at h1
          have hclean : pathsClean parse readFile paths0 :=
            applyInherit_ok_clean parse readFile paths0 res cfg1 h1
          have hchar := applyInherit_clean parse readFile paths0 res hclean
          rw [hchar] at h1
          injection h1 with h1e
          have hinh1 : cfg1.inherit = res.inherit := by rw [← h1e]
          have hpp : paths0 = paths := by
            have hsome : some paths0 = some paths := by
              rw [← hres, ← hinh1, hin]
            injection hsome
          have hag : ∀ p ∈ paths0, update_config serialize readFile cfg1 p = readFile p := by
            intro p hp
            have hmem : p ∈ cfg1.inherit.getD [] := by
              rw [hin]
              simpa using hpp ▸ hp
            have hne : p ≠ primaryPath := hprim p hmem
            simp [update_config, hne]
          have hclean2 : pathsClean parse (update_config serialize readFile cfg1) paths0 :=
            fun p hp c hc => hclean p hp c (by rw [← hag p hp]; exact hc)
          have hchar2 := applyInherit_clean parse
            (update_config serialize readFile cfg1) paths0 cfg1 hclean2
          have hget : get_config parse (update_config serialize readFile cfg1)
              = .ok { cfg1 with
                  services := overlayServices cfg1.services
                    (inheritList parse (update_config serialize readFile cfg1) paths0) } := by
            simp only [get_config, hrf2, hrt, hin]
            rw [← hpp, hchar2, hin, hpp]
          refine ⟨_, hget, rfl, rfl, hin, ?_⟩
          intro q
          have hIeq : inheritList parse (update_config serialize readFile cfg1) paths0
              = inheritList parse readFile paths0 :=
            inheritList_congr parse readFile (update_config serialize readFile cfg1)
              paths0 hag
          have hsvc : cfg1.services
              = overlayServices res.services (inheritList parse readFile paths0) := by
            rw [← h1e]
          show lookupA (overlayServices cfg1.services
            (inheritList parse (update_config serialize readFile cfg1) paths0)) q
            = lookupA cfg1.services q
          rw [hIeq, lookupA_overlayServices]
          cases hl : lookupLast (inheritList parse readFile paths0) q with
          | some v =>
            rw [hsvc, lookupA_overlayServices, hl]
          | none => rfl

/-- A parse function for the C7 witness: accepts exactly the saved form
of the default configuration. -/
def parseDefaultOnly : String → Option ServicesConfiguration :=
  fun _ => some ServicesConfiguration.defaultConfig

theorem c7_roundtrip_witness :
    ∃ cfg2, get_config parseDefaultOnly
        (update_config (fun _ => "S") (fun _ => none)
          ServicesConfiguration.defaultConfig) = .ok cfg2 ∧
      cfg2.server = ServicesConfiguration.defaultConfig.server ∧
      cfg2.service_states = ServicesConfiguration.defaultConfig.service_states ∧
      cfg2.inherit = ServicesConfiguration.defaultConfig.inherit ∧
      ∀ q, lookupA cfg2.services q
        = lookupA ServicesConfiguration.defaultConfig.services q :=
  c7_roundtrip parseDefaultOnly (fun _ => "S") (fun _ => none)
    ServicesConfiguration.defaultConfig rfl rfl
    (by intro p hp; simp [ServicesConfiguration.defaultConfig] at hp)

end Sproc
